import Mathlib

/-!
Shallow embedding of `src/main.ts` (OpenCode Voice MCP server).

The server keeps an in-memory map from session id to session state,
drives transcription from the upload endpoint, and answers the
`voice-to-text` tool call with a bounded polling wait loop.  The map is
modelled as an association list with unique keys, the two `await`
suspension points of the upload handler split it into a begin phase
(status := processing, audio stored) and a finish phase (apply the
transcription outcome), and the wait loop is modelled over a discrete
poll schedule: poll `k` happens at elapsed time `k * 500` ms, sleeps
take exactly the poll interval and checks are instantaneous.  The
surrounding environment (concurrent uploads and sweeps) is modelled as
the function `env : Nat → Store` giving the store snapshot seen by
poll `k`.
-/

namespace OpencodeVoice

/-- The `status` field of a session, from the `Session` interface. -/
inductive Status where
  | waiting
  | recording
  | processing
  | completed
  | error
deriving DecidableEq, Repr

/-- A session, from the `Session` interface in `main.ts`. -/
structure Session where
  id : String
  createdAt : Nat
  status : Status
  audioData : Option (List Nat) := none
  result : Option String := none
  error : Option String := none
deriving DecidableEq, Repr

/-- The in-memory session map `sessions`, as an association list. -/
def Store := List (String × Session)
deriving DecidableEq, Repr

instance : Membership (String × Session) Store := inferInstanceAs (Membership _ (List _))

/-- `sessions.get(id)`: first binding of the key, if any. -/
def getSession (store : Store) (sid : String) : Option Session :=
  match store with
  | [] => none
  | (k, s) :: rest => if k = sid then some s else getSession rest sid

/-- Mutation of the session object held in the map (`session.field = v`):
replace the first binding of the key. -/
def setSession (store : Store) (sid : String) (f : Session → Session) : Store :=
  match store with
  | [] => []
  | (k, s) :: rest =>
      if k = sid then (k, f s) :: rest else (k, s) :: setSession rest sid f

/-- `sessions.delete(id)`: remove the binding of the key. -/
def deleteSession (store : Store) (sid : String) : Store :=
  match store with
  | [] => []
  | (k, s) :: rest =>
      if k = sid then deleteSession rest sid else (k, s) :: deleteSession rest sid

/-- `sessions.set(sessionId, session)` for a fresh id. -/
def insertSession (store : Store) (sid : String) (s : Session) : Store :=
  (sid, s) :: store

/-- The session created by the `voice-to-text` branch of `tools/call`:
`{ id, createdAt: Date.now(), status: "waiting" }`. -/
def newSession (sid : String) (now : Nat) : Session :=
  { id := sid, createdAt := now, status := Status.waiting }

/-- Parameterised sweep: delete every session with
`now - createdAt > maxAgeMs`, keep the rest (spec §4.1 `sweep(maxAgeMs)`;
the loop body of `cleanupOldSessions`). -/
def sweep (maxAgeMs now : Nat) (store : Store) : Store :=
  match store with
  | [] => []
  | (k, s) :: rest =>
      if maxAgeMs < now - s.createdAt then sweep maxAgeMs now rest
      else (k, s) :: sweep maxAgeMs now rest

/-- `cleanupOldSessions`: deletes sessions with `now - createdAt > 5*60*1000`. -/
def cleanupOldSessions (now : Nat) (store : Store) : Store :=
  sweep (5 * 60 * 1000) now store

/-- Outcome of `transcribeAudio`: either the promise resolves with
`result.text` (which is `undefined` when the body lacks the field,
hence `Option String`), or it rejects with an error message. -/
inductive TranscribeResult where
  | success (text : Option String)
  | failure (msg : String)
deriving DecidableEq, Repr

/-- Abstraction of the transcription-service HTTP response:
`ok`/`status` from the fetch response, `errorText` the body text read
on a non-ok response, and `textField` the `text` field of the parsed
JSON body (`none` when the field is absent). -/
structure ApiResponse where
  ok : Bool
  status : Nat
  errorText : String
  textField : Option String
deriving DecidableEq, Repr

/-- `transcribeAudio` from `main.ts`, as a function of the configured
API key and the upstream response: throws when the key is missing,
throws on a non-ok response, and otherwise returns `result.text`
unchecked. -/
def transcribeAudio (apiKey : Option String) (resp : ApiResponse) : TranscribeResult :=
  match apiKey with
  | none => TranscribeResult.failure "SILICONFLOW_API_KEY not configured"
  | some _ =>
      if resp.ok then TranscribeResult.success resp.textField
      else
        TranscribeResult.failure
          ("SiliconFlow API error: " ++ toString resp.status ++ " - " ++ resp.errorText)

/-- Body of the upload endpoint's JSON responses: either
`JSON.stringify({ error: msg })` or `JSON.stringify({ success: true, result })`. -/
inductive UploadBody where
  | jsonError (msg : String)
  | jsonSuccess (result : Option String)
deriving DecidableEq, Repr

/-- An HTTP response of the upload endpoint (status code and body). -/
structure HttpResponse where
  status : Nat
  body : UploadBody
deriving DecidableEq, Repr

/-- First phase of the upload handler, up to the `await` of
`transcribeAudio`: `session.status = "processing"` and
`session.audioData = audioData`. -/
def uploadBegin (sid : String) (data : List Nat) (store : Store) : Store :=
  setSession store sid
    (fun s => { s with status := Status.processing, audioData := some data })

/-- Second phase of the upload handler: on success
`session.result = result; session.status = "completed"`, on a thrown
error `session.status = "error"; session.error = message`.  Neither
path clears the other field. -/
def uploadFinish (sid : String) (tr : TranscribeResult) (store : Store) :
    HttpResponse × Store :=
  match tr with
  | TranscribeResult.success t =>
      ({ status := 200, body := UploadBody.jsonSuccess t },
        setSession store sid
          (fun s => { s with result := t, status := Status.completed }))
  | TranscribeResult.failure msg =>
      ({ status := 500, body := UploadBody.jsonError msg },
        setSession store sid
          (fun s => { s with status := Status.error, error := some msg }))

/-- The `/api/upload/:id` branch of `handler`: 404 and no mutation when
the session is absent, otherwise the begin phase followed by the finish
phase with the given transcription outcome. -/
def uploadHandler (sid : String) (data : List Nat) (tr : TranscribeResult)
    (store : Store) : HttpResponse × Store :=
  match getSession store sid with
  | none => ({ status := 404, body := UploadBody.jsonError "Session not found" }, store)
  | some _ => uploadFinish sid tr (uploadBegin sid data store)

/-- JavaScript truthiness of the optional `result` string, as used by
the guard `currentSession.status === "completed" && currentSession.result`:
`undefined` and the empty string are falsy. -/
def jsTruthy (o : Option String) : Bool :=
  match o with
  | none => false
  | some t => !t.isEmpty

/-- `currentSession.error || "未知错误"`: falsy error replaced by the default. -/
def jsOrDefault (o : Option String) (d : String) : String :=
  match o with
  | none => d
  | some e => if e.isEmpty then d else e

/-- The recording link computed at session creation:
`${baseUrl}/record/${sessionId}`. -/
def recordUrl (baseUrl sid : String) : String :=
  baseUrl ++ "/record/" ++ sid

/-- Result of one exit of the wait loop: the four `return` branches of
the `while (true)` loop in the `voice-to-text` tool call. -/
inductive LoopOutcome where
  | expired
  | success (text : String)
  | failure (msg : String)
  | timeout (url : String)
deriving DecidableEq, Repr

/-- The text of the single content item of the tool-call result, per
loop outcome. -/
def outcomeText (out : LoopOutcome) : String :=
  match out with
  | LoopOutcome.expired => "❌ 会话已过期，请重试。"
  | LoopOutcome.success t => "🎤 转写结果：" ++ t
  | LoopOutcome.failure e => "❌ 转写失败：" ++ e
  | LoopOutcome.timeout url => "⏰ 录音超时（60秒）。请打开此链接录音：" ++ url

/-- The branching of the wait loop body on the looked-up session. -/
def pollGo (sid url : String) (elapsed maxWait : Nat) (store : Store) :
    Option Session → Option (LoopOutcome × Store)
  | none => some (LoopOutcome.expired, store)
  | some s =>
      if s.status = Status.completed ∧ jsTruthy s.result = true then
        some (LoopOutcome.success (s.result.getD ""), deleteSession store sid)
      else if s.status = Status.error then
        some (LoopOutcome.failure (jsOrDefault s.error "未知错误"), deleteSession store sid)
      else if maxWait < elapsed then
        some (LoopOutcome.timeout url, deleteSession store sid)
      else none

/-- One iteration of the wait loop body at elapsed time `elapsed`:
`none` means fall through to the 500 ms sleep and poll again, `some`
means return with the given outcome and (possibly mutated) store. -/
def pollStep (sid url : String) (elapsed maxWait : Nat) (store : Store) :
    Option (LoopOutcome × Store) :=
  pollGo sid url elapsed maxWait store (getSession store sid)

/-- The wait loop, fuel-bounded: poll `k` sees store snapshot `env k`
at elapsed time `k * 500` ms with ceiling `maxWait = 60000` ms; on
return it yields the outcome, the elapsed time at return and the store
as left by the returning iteration. -/
def waitLoopAux (env : Nat → Store) (sid url : String) :
    Nat → Nat → Option (LoopOutcome × Nat × Store)
  | 0, _ => none
  | fuel + 1, k =>
      match pollStep sid url (k * 500) 60000 (env k) with
      | some (out, store') => some (out, k * 500, store')
      | none => waitLoopAux env sid url fuel (k + 1)

/-- The wait loop started at elapsed time 0. -/
def waitLoop (env : Nat → Store) (sid url : String) (fuel : Nat) :
    Option (LoopOutcome × Nat × Store) :=
  waitLoopAux env sid url fuel 0

/-- The `tools/call` `voice-to-text` branch before the wait loop:
sweep, create a fresh waiting session, compute the recording link. -/
def toolCallVoiceSetup (sid : String) (now : Nat) (baseUrl : String)
    (store : Store) : Store × String :=
  (insertSession (cleanupOldSessions now store) sid (newSession sid now),
    recordUrl baseUrl sid)

/-- A JSON-RPC request id (`number | string`). -/
inductive ReqId where
  | num (n : Int)
  | str (s : String)
deriving DecidableEq, Repr

/-- The `params` object of an MCP request, restricted to the field the
server reads (`params.name`, possibly absent). -/
structure MCPParams where
  name : Option String
deriving DecidableEq, Repr

/-- An MCP request envelope. -/
structure MCPRequest where
  id : Option ReqId
  method : String
  params : Option MCPParams
deriving DecidableEq, Repr

/-- A structured JSON-RPC error (`{ code, message }`). -/
structure MCPError where
  code : Int
  message : String
deriving DecidableEq, Repr

/-- Result payloads the server produces. -/
inductive ResultPayload where
  | initializeResult (protocolVersion serverName serverVersion : String)
  | toolsListResult (toolNames : List String)
  | contentResult (text : String)
deriving DecidableEq, Repr

/-- An MCP response envelope. -/
structure MCPResponse where
  jsonrpc : String
  id : Option ReqId
  result : Option ResultPayload := none
  error : Option MCPError := none
deriving DecidableEq, Repr

/-- What `handleMCPRequest` does before any waiting: either an
immediate response, or entry into the `voice-to-text` session/wait-loop
branch. -/
inductive MCPOutcome where
  | response (r : MCPResponse)
  | voiceToolCall
deriving DecidableEq, Repr

/-- A concrete `tools/call` request naming an unsupported tool. -/
def demoUnknownToolReq : MCPRequest :=
  { id := some (ReqId.num 7), method := "tools/call",
    params := some { name := some "other-tool" } }

/-- Rendering of the interpolated `${toolName}` when `params?.name` is
absent: JavaScript prints `undefined`. -/
def jsShowOpt (o : Option String) : String :=
  match o with
  | none => "undefined"
  | some s => s

/-- The `params?.name` read of `handleMCPRequest`. -/
def toolNameOf (req : MCPRequest) : Option String :=
  req.params.bind MCPParams.name

/-- The dispatch of `handleMCPRequest`: `initialize`, `tools/list`,
`tools/call` (splitting on the tool name) and the default branch. -/
def handleMCPRequest (req : MCPRequest) : MCPOutcome :=
  if req.method = "initialize" then
    MCPOutcome.response
      { jsonrpc := "2.0", id := req.id,
        result := some (ResultPayload.initializeResult "2024-11-05" "opencode-voice" "1.0.0") }
  else if req.method = "tools/list" then
    MCPOutcome.response
      { jsonrpc := "2.0", id := req.id,
        result := some (ResultPayload.toolsListResult ["voice-to-text"]) }
  else if req.method = "tools/call" then
    if toolNameOf req = some "voice-to-text" then
      MCPOutcome.voiceToolCall
    else
      MCPOutcome.response
        { jsonrpc := "2.0", id := req.id,
          error := some
            { code := -32601,
              message := "Unknown tool: " ++ jsShowOpt (toolNameOf req) } }
  else
    MCPOutcome.response
      { jsonrpc := "2.0", id := req.id,
        error := some
          { code := -32601, message := "Method not found: " ++ req.method } }

/-- The MCP response wrapping a wait-loop outcome (all four branches
return a `result` with a single text content item). -/
def voiceToolResponse (reqId : Option ReqId) (out : LoopOutcome) : MCPResponse :=
  { jsonrpc := "2.0", id := reqId,
    result := some (ResultPayload.contentResult (outcomeText out)) }

/-- Position of a status along the chain
`waiting → processing → {completed, error}` (with the vestigial
`recording` between `waiting` and `processing`). -/
def statusRank : Status → Nat
  | Status.waiting => 0
  | Status.recording => 1
  | Status.processing => 2
  | Status.completed => 3
  | Status.error => 3

/-- A session state on which the wait-loop body falls through to the
sleep: not a consumable success (`completed` with truthy `result`) and
not in `error` status. -/
def stuckSession (s : Session) : Prop :=
  ¬(s.status = Status.completed ∧ jsTruthy s.result = true) ∧
    s.status ≠ Status.error

instance (s : Session) : Decidable (stuckSession s) := by
  unfold stuckSession
  infer_instance

/-- Concrete scenario store: one freshly created session. -/
def storeW : Store := [("s", newSession "s" 0)]

/-- `storeW` after one successful upload transcribing to `"hi"`. -/
def storeC : Store :=
  (uploadHandler "s" [1] (TranscribeResult.success (some "hi")) storeW).2

/-- `storeC` after a second, failing upload for the same identifier. -/
def storeE : Store :=
  (uploadHandler "s" [2] (TranscribeResult.failure "boom") storeC).2

/-- The session of `storeW` after the begin phase of an upload of `[1]`. -/
def sessionProcessing1 : Session :=
  { newSession "s" 0 with status := Status.processing, audioData := some [1] }

/-- The session of `storeC`: `sessionProcessing1` completed with result `"hi"`. -/
def sessionCompleted1 : Session :=
  { sessionProcessing1 with result := some "hi", status := Status.completed }

/-- A session completed with an empty-string result. -/
def sessionEmptyResult : Session :=
  { newSession "s" 0 with status := Status.completed, result := some "" }

/-- Concrete scenario store holding `sessionEmptyResult`. -/
def storeEmptyResult : Store := [("s", sessionEmptyResult)]

/-! ### Store lemmas -/

theorem getSession_setSession_self (store : Store) (sid : String)
    (f : Session → Session) :
    getSession (setSession store sid f) sid = (getSession store sid).map f := by
  induction store with
  | nil => rfl
  | cons p rest ih =>
      obtain ⟨k, s⟩ := p
      by_cases hk : k = sid
      · simp [getSession, setSession, hk]
      · simp [getSession, setSession, hk, ih]

theorem getSession_setSession_other (store : Store) (sid sid' : String)
    (f : Session → Session) (h : sid ≠ sid') :
    getSession (setSession store sid f) sid' = getSession store sid' := by
  induction store with
  | nil => rfl
  | cons p rest ih =>
      obtain ⟨k, s⟩ := p
      by_cases hk : k = sid
      · subst hk
        simp [getSession, setSession, h]
      · simp [getSession, setSession, hk, ih]

theorem getSession_deleteSession_self (store : Store) (sid : String) :
    getSession (deleteSession store sid) sid = none := by
  induction store with
  | nil => rfl
  | cons p rest ih =>
      obtain ⟨k, s⟩ := p
      by_cases hk : k = sid
      · simpa [deleteSession, hk] using ih
      · simpa [deleteSession, getSession, hk] using ih

theorem getSession_deleteSession_other (store : Store) (sid sid' : String)
    (h : sid ≠ sid') :
    getSession (deleteSession store sid) sid' = getSession store sid' := by
  induction store with
  | nil => rfl
  | cons p rest ih =>
      obtain ⟨k, s⟩ := p
      by_cases hk : k = sid
      · subst hk
        simpa [deleteSession, getSession, h] using ih
      · by_cases hk' : k = sid'
        · simp [deleteSession, getSession, hk, hk', Ne.symm h]
        · simpa [deleteSession, getSession, hk, hk'] using ih

theorem getSession_eq_none_of_not_mem (store : Store) (sid : String)
    (h : sid ∉ List.map Prod.fst store) : getSession store sid = none := by
  induction store with
  | nil => rfl
  | cons p rest ih =>
      obtain ⟨k, s⟩ := p
      simp only [List.map_cons, List.mem_cons] at h
      push_neg at h
      have hk : k ≠ sid := fun hkk => h.1 hkk.symm
      simp [getSession, hk, ih h.2]

theorem sweep_keys_subset (T now : Nat) (store : Store) :
    List.map Prod.fst (sweep T now store) ⊆ List.map Prod.fst store := by
  induction store with
  | nil => simp [sweep]
  | cons p rest ih =>
      obtain ⟨k, s⟩ := p
      by_cases hage : T < now - s.createdAt
      · simp only [sweep, if_pos hage, List.map_cons]
        exact ih.trans (List.subset_cons_self _ _)
      · simp only [sweep, if_neg hage, List.map_cons]
        exact List.cons_subset_cons _ ih

/-- Membership in the sweep is membership with small age, assuming the
keys are unique (which `Map` guarantees). -/
theorem getSession_sweep (T now : Nat) (store : Store) (sid : String)
    (hnd : (List.map Prod.fst store).Nodup) (s : Session) :
    getSession (sweep T now store) sid = some s ↔
      getSession store sid = some s ∧ now - s.createdAt ≤ T := by
  induction store with
  | nil => simp [sweep, getSession]
  | cons p rest ih =>
      obtain ⟨k, sh⟩ := p
      simp only [List.map_cons, List.nodup_cons] at hnd
      by_cases hk : k = sid
      · subst hk
        by_cases hage : T < now - sh.createdAt
        · have hnone : getSession (sweep T now rest) k = none := by
            apply getSession_eq_none_of_not_mem
            intro hmem
            exact hnd.1 (sweep_keys_subset T now rest hmem)
          rw [sweep, if_pos hage, hnone]
          simp only [getSession, if_pos rfl]
          constructor
          · intro hfalse
            exact absurd hfalse (by simp)
          · rintro ⟨hsh, hle⟩
            injection hsh with hsh
            subst hsh
            exact absurd hle (Nat.not_le.mpr hage)
        · rw [sweep, if_neg hage]
          simp only [getSession, if_pos rfl]
          constructor
          · intro hsh
            injection hsh with hsh
            subst hsh
            exact ⟨rfl, Nat.not_lt.mp hage⟩
          · rintro ⟨hsh, _⟩
            injection hsh with hsh
            subst hsh
            rfl
      · have ih' := ih hnd.2
        by_cases hage : T < now - sh.createdAt
        · rw [sweep, if_pos hage]
          simpa [getSession, hk] using ih'
        · rw [sweep, if_neg hage]
          simpa [getSession, hk] using ih'

/-- A session surviving a sweep is unchanged (unique keys). -/
theorem getSession_sweep_unchanged (T now : Nat) (store : Store) (sid : String)
    (hnd : (List.map Prod.fst store).Nodup) (s s' : Session)
    (hs : getSession store sid = some s)
    (hs' : getSession (sweep T now store) sid = some s') : s' = s := by
  have h := (getSession_sweep T now store sid hnd s').mp hs'
  rw [hs] at h
  exact (Option.some_inj.mp h.1).symm

/-! ### Wait-loop lemmas -/

theorem pollStep_stuck (sid url : String) (e mw : Nat) (store : Store)
    (s : Session) (hs : getSession store sid = some s) (hstuck : stuckSession s) :
    pollStep sid url e mw store =
      if mw < e then some (LoopOutcome.timeout url, deleteSession store sid)
      else none := by
  unfold pollStep
  rw [hs]
  simp only [pollGo]
  rw [if_neg hstuck.1, if_neg hstuck.2]

theorem pollStep_inv (sid url : String) (e mw : Nat) (store : Store)
    (out : LoopOutcome) (st' : Store)
    (h : pollStep sid url e mw store = some (out, st')) :
    (out = LoopOutcome.expired ∧ st' = store ∧ getSession store sid = none) ∨
      (st' = deleteSession store sid ∧ ∃ s, getSession store sid = some s ∧
        ((∃ t, out = LoopOutcome.success t ∧ s.status = Status.completed ∧
            jsTruthy s.result = true) ∨
          (out = LoopOutcome.failure (jsOrDefault s.error "未知错误") ∧
            s.status = Status.error) ∨
          (out = LoopOutcome.timeout url ∧ mw < e))) := by
  unfold pollStep at h
  cases hget : getSession store sid with
  | none =>
      rw [hget] at h
      simp only [pollGo] at h
      injection h with h
      injection h with h1 h2
      exact Or.inl ⟨h1.symm, h2.symm, rfl⟩
  | some s =>
      rw [hget] at h
      simp only [pollGo] at h
      by_cases hc : s.status = Status.completed ∧ jsTruthy s.result = true
      · rw [if_pos hc] at h
        injection h with h
        injection h with h1 h2
        exact Or.inr ⟨h2.symm, s, rfl,
          Or.inl ⟨s.result.getD "", h1.symm, hc⟩⟩
      · rw [if_neg hc] at h
        by_cases he : s.status = Status.error
        · rw [if_pos he] at h
          injection h with h
          injection h with h1 h2
          exact Or.inr ⟨h2.symm, s, rfl, Or.inr (Or.inl ⟨h1.symm, he⟩)⟩
        · rw [if_neg he] at h
          by_cases ht : mw < e
          · rw [if_pos ht] at h
            injection h with h
            injection h with h1 h2
            exact Or.inr ⟨h2.symm, s, rfl, Or.inr (Or.inr ⟨h1.symm, ht⟩)⟩
          · rw [if_neg ht] at h
            exact absurd h (by simp)

/-- In an environment where the session stays stuck at every poll, the
loop reaches poll 121 (elapsed 60500 ms, the first multiple of 500
strictly above 60000) and returns the timeout outcome. -/
theorem waitLoopAux_stuck_timeout (env : Nat → Store) (sid url : String)
    (h : ∀ k, ∃ s, getSession (env k) sid = some s ∧ stuckSession s) :
    ∀ j k fuel, k + j = 121 → j < fuel →
      waitLoopAux env sid url fuel k =
        some (LoopOutcome.timeout url, 60500, deleteSession (env 121) sid) := by
  intro j
  induction j with
  | zero =>
      intro k fuel hk hfuel
      simp only [Nat.add_zero] at hk
      subst hk
      obtain ⟨fuel, rfl⟩ : ∃ f, fuel = f + 1 := by
        cases fuel with
        | zero => exact absurd hfuel (by simp)
        | succ f => exact ⟨f, rfl⟩
      obtain ⟨s, hs, hstuck⟩ := h 121
      rw [waitLoopAux, pollStep_stuck sid url (121 * 500) 60000 (env 121) s hs hstuck,
        if_pos (by norm_num)]
  | succ j ih =>
      intro k fuel hk hfuel
      obtain ⟨fuel, rfl⟩ : ∃ f, fuel = f + 1 := by
        cases fuel with
        | zero => exact absurd hfuel (by simp)
        | succ f => exact ⟨f, rfl⟩
      obtain ⟨s, hs, hstuck⟩ := h k
      have hk120 : k ≤ 120 := by omega
      have hsmall : ¬ 60000 < k * 500 := by
        have : k * 500 ≤ 120 * 500 := Nat.mul_le_mul_right 500 hk120
        omega
      rw [waitLoopAux, pollStep_stuck sid url (k * 500) 60000 (env k) s hs hstuck,
        if_neg hsmall]
      exact ih (k + 1) fuel (by omega) (by omega)

/-- Whenever the loop returns a success outcome, the session has been
deleted from the store it returns. -/
theorem waitLoopAux_success_deleted (env : Nat → Store) (sid url : String) :
    ∀ fuel k t e st,
      waitLoopAux env sid url fuel k = some (LoopOutcome.success t, e, st) →
      getSession st sid = none := by
  intro fuel
  induction fuel with
  | zero =>
      intro k t e st h
      exact absurd h (by simp [waitLoopAux])
  | succ fuel ih =>
      intro k t e st h
      rw [waitLoopAux] at h
      cases hp : pollStep sid url (k * 500) 60000 (env k) with
      | none =>
          rw [hp] at h
          exact ih (k + 1) t e st h
      | some p =>
          obtain ⟨out, store'⟩ := p
          rw [hp] at h
          injection h with h
          injection h with h1 h2
          injection h2 with h2 h3
          subst h1
          subst h3
          rcases pollStep_inv sid url (k * 500) 60000 (env k) _ _ hp with
            ⟨hout, _, _⟩ | ⟨hdel, _, _⟩
          · exact absurd hout (by simp)
          · rw [hdel]
            exact getSession_deleteSession_self (env k) sid

/-- If at every poll the session, when present, is stuck (for instance
`completed` with an empty or absent result), the loop can only exit
through the timeout or the expiry branch. -/
theorem waitLoopAux_stuck_no_success (env : Nat → Store) (sid url : String)
    (h : ∀ k s, getSession (env k) sid = some s → stuckSession s) :
    ∀ fuel k out e st,
      waitLoopAux env sid url fuel k = some (out, e, st) →
      out = LoopOutcome.timeout url ∨ out = LoopOutcome.expired := by
  intro fuel
  induction fuel with
  | zero =>
      intro k out e st hloop
      exact absurd hloop (by simp [waitLoopAux])
  | succ fuel ih =>
      intro k out e st hloop
      rw [waitLoopAux] at hloop
      cases hp : pollStep sid url (k * 500) 60000 (env k) with
      | none =>
          rw [hp] at hloop
          exact ih (k + 1) out e st hloop
      | some p =>
          obtain ⟨out', store'⟩ := p
          rw [hp] at hloop
          injection hloop with hloop
          injection hloop with h1 h2
          subst h1
          rcases pollStep_inv sid url (k * 500) 60000 (env k) _ _ hp with
            ⟨hout, _, _⟩ | ⟨_, s, hs, hcase⟩
          · exact Or.inr hout
          · rcases hcase with ⟨t, _, hcomp, htru⟩ | ⟨_, herr⟩ | ⟨hout, _⟩
            · exact absurd ⟨hcomp, htru⟩ (h k s hs).1
            · exact absurd herr (h k s hs).2
            · exact Or.inl hout

/-! ### Upload-handler lemmas -/

theorem statusRank_le_three (st : Status) : statusRank st ≤ 3 := by
  cases st <;> simp [statusRank]

theorem uploadHandler_none_eq (sid : String) (d : List Nat) (tr : TranscribeResult)
    (store : Store) (h : getSession store sid = none) :
    uploadHandler sid d tr store =
      ({ status := 404, body := UploadBody.jsonError "Session not found" }, store) := by
  unfold uploadHandler
  rw [h]

theorem uploadHandler_some_eq (sid : String) (d : List Nat) (tr : TranscribeResult)
    (store : Store) (s : Session) (h : getSession store sid = some s) :
    uploadHandler sid d tr store = uploadFinish sid tr (uploadBegin sid d store) := by
  unfold uploadHandler
  rw [h]

theorem getSession_uploadBegin_self (sid : String) (d : List Nat) (store : Store) :
    getSession (uploadBegin sid d store) sid =
      (getSession store sid).map
        (fun s => { s with status := Status.processing, audioData := some d }) :=
  getSession_setSession_self store sid _

theorem stuck_of_nonterminal (s : Session) (h1 : s.status ≠ Status.completed)
    (h2 : s.status ≠ Status.error) : stuckSession s :=
  ⟨fun hc => h1 hc.1, h2⟩

/-- The first phase of an upload never lowers the rank of a session
that is not yet terminal. -/
theorem rank_le_uploadBegin (store : Store) (sid2 sid : String) (d : List Nat)
    (s s' : Session) (hs : getSession store sid = some s)
    (hnterm : s.status ≠ Status.completed ∧ s.status ≠ Status.error)
    (hs' : getSession (uploadBegin sid2 d store) sid = some s') :
    statusRank s.status ≤ statusRank s'.status := by
  by_cases hk : sid2 = sid
  · subst hk
    rw [getSession_uploadBegin_self, hs, Option.map_some'] at hs'
    injection hs' with hs'
    subst hs'
    cases hst : s.status with
    | completed => exact absurd hst hnterm.1
    | error => exact absurd hst hnterm.2
    | waiting => simp [statusRank, hst]
    | recording => simp [statusRank, hst]
    | processing => simp [statusRank, hst]
  · rw [uploadBegin, getSession_setSession_other _ _ _ _ hk, hs] at hs'
    injection hs' with hs'
    subst hs'
    exact Nat.le_refl _

/-- The second phase of an upload never lowers the rank of any session:
it either leaves a session untouched or moves it to a terminal status,
and terminal statuses have the maximal rank. -/
theorem rank_le_uploadFinish (store : Store) (sid2 sid : String)
    (tr : TranscribeResult) (s s' : Session) (hs : getSession store sid = some s)
    (hs' : getSession ((uploadFinish sid2 tr store).2) sid = some s') :
    statusRank s.status ≤ statusRank s'.status := by
  by_cases hk : sid2 = sid
  · subst hk
    cases tr with
    | success t =>
        simp only [uploadFinish] at hs'
        rw [getSession_setSession_self, hs, Option.map_some'] at hs'
        injection hs' with hs'
        subst hs'
        exact statusRank_le_three s.status
    | failure m =>
        simp only [uploadFinish] at hs'
        rw [getSession_setSession_self, hs, Option.map_some'] at hs'
        injection hs' with hs'
        subst hs'
        exact statusRank_le_three s.status
  · cases tr with
    | success t =>
        simp only [uploadFinish] at hs'
        rw [getSession_setSession_other _ _ _ _ hk, hs] at hs'
        injection hs' with hs'
        subst hs'
        exact Nat.le_refl _
    | failure m =>
        simp only [uploadFinish] at hs'
        rw [getSession_setSession_other _ _ _ _ hk, hs] at hs'
        injection hs' with hs'
        subst hs'
        exact Nat.le_refl _

/-! ### Claims -/

/-- Claim C1, counterexample: a session whose status is `completed` is
set back to `processing` by the first phase of a later upload for the
same identifier, so the status chain is not forward-only. -/
theorem upload_regresses_completed_status :
    (getSession storeC "s").map Session.status = some Status.completed ∧
    (getSession (uploadBegin "s" [2] storeC) "s").map Session.status =
      some Status.processing := by
  decide

/-- Claim C1 (amended): under every single operation of the system
(either phase of an upload, a full upload, a returning or continuing
wait-loop poll, or a sweep), a session that is not yet terminal and is
still present afterwards only moves forward along
`waiting → processing → {completed, error}`; only sessions already in a
terminal status can be regressed (by a later upload, as the
counterexample shows). -/
theorem status_forward_for_nonterminal_sessions (store store' : Store)
    (sid : String) (s s' : Session)
    (hnd : (List.map Prod.fst store).Nodup)
    (hstep :
      (∃ sid2 d, store' = uploadBegin sid2 d store) ∨
      (∃ sid2 tr, store' = (uploadFinish sid2 tr store).2) ∨
      (∃ sid2 d tr, store' = (uploadHandler sid2 d tr store).2) ∨
      (∃ sid2 url e mw out, pollStep sid2 url e mw store = some (out, store')) ∨
      (∃ T now, store' = sweep T now store))
    (hs : getSession store sid = some s)
    (hnterm : s.status ≠ Status.completed ∧ s.status ≠ Status.error)
    (hs' : getSession store' sid = some s') :
    statusRank s.status ≤ statusRank s'.status := by
  rcases hstep with ⟨sid2, d, rfl⟩ | ⟨sid2, tr, rfl⟩ | ⟨sid2, d, tr, rfl⟩ |
    ⟨sid2, url, e, mw, out, hp⟩ | ⟨T, now, rfl⟩
  · exact rank_le_uploadBegin store sid2 sid d s s' hs hnterm hs'
  · exact rank_le_uploadFinish store sid2 sid tr s s' hs hs'
  · cases hg : getSession store sid2 with
    | none =>
        rw [uploadHandler_none_eq sid2 d tr store hg] at hs'
        rw [hs] at hs'
        injection hs' with hs'
        subst hs'
        exact Nat.le_refl _
    | some s2 =>
        rw [uploadHandler_some_eq sid2 d tr store s2 hg] at hs'
        have hmid : ∃ sm, getSession (uploadBegin sid2 d store) sid = some sm := by
          by_cases hk : sid2 = sid
          · subst hk
            rw [getSession_uploadBegin_self, hs, Option.map_some']
            exact ⟨_, rfl⟩
          · rw [uploadBegin, getSession_setSession_other _ _ _ _ hk, hs]
            exact ⟨s, rfl⟩
        obtain ⟨sm, hsm⟩ := hmid
        exact Nat.le_trans
          (rank_le_uploadBegin store sid2 sid d s sm hs hnterm hsm)
          (rank_le_uploadFinish (uploadBegin sid2 d store) sid2 sid tr sm s' hsm hs')
  · rcases pollStep_inv sid2 url e mw store out store' hp with
      ⟨_, rfl, _⟩ | ⟨rfl, _, _, _⟩
    · rw [hs] at hs'
      injection hs' with hs'
      subst hs'
      exact Nat.le_refl _
    · by_cases hk : sid = sid2
      · subst hk
        rw [getSession_deleteSession_self] at hs'
        exact absurd hs' (by simp)
      · rw [getSession_deleteSession_other _ _ _ (fun h => hk h.symm), hs] at hs'
        injection hs' with hs'
        subst hs'
        exact Nat.le_refl _
  · have := getSession_sweep_unchanged T now store sid hnd s s' hs hs'
    subst this
    exact Nat.le_refl _

/-- Claim C1, witness for the amended theorem at a concrete input. -/
theorem status_forward_for_nonterminal_sessions_witness :
    statusRank (newSession "s" 0).status ≤ statusRank sessionProcessing1.status :=
  status_forward_for_nonterminal_sessions storeW (uploadBegin "s" [1] storeW)
    "s" (newSession "s" 0) sessionProcessing1
    (by decide) (Or.inl ⟨"s", [1], rfl⟩) (by decide) (by decide) (by decide)

/-- Claim C2, counterexample: after a successful upload followed by a
failing upload for the same session, `result` and `error` are both
non-empty simultaneously (the later upload does not clear the stale
`result`). -/
theorem double_upload_sets_result_and_error :
    getSession storeE "s" =
      some
        { id := "s", createdAt := 0, status := Status.error,
          audioData := some [2], result := some "hi", error := some "boom" } ∧
    (some "hi" : Option String) ≠ none ∧ (some "boom" : Option String) ≠ none := by
  decide

/-- Claim C2 (amended): a single upload applied to a session whose
`result` and `error` are both still empty leaves at most one of the two
fields populated; only repeated uploads for the same identifier can
populate both (as the counterexample shows). -/
theorem single_upload_at_most_one_of_result_error (store : Store) (sid : String)
    (d : List Nat) (tr : TranscribeResult) (s : Session)
    (hs : getSession store sid = some s)
    (hres : s.result = none) (herr : s.error = none) (s' : Session)
    (hs' : getSession ((uploadHandler sid d tr store).2) sid = some s') :
    s'.result = none ∨ s'.error = none := by
  rw [uploadHandler_some_eq sid d tr store s hs] at hs'
  cases tr with
  | success t =>
      simp only [uploadFinish] at hs'
      rw [getSession_setSession_self, getSession_uploadBegin_self, hs,
        Option.map_some', Option.map_some'] at hs'
      injection hs' with hs'
      subst hs'
      exact Or.inr herr
  | failure m =>
      simp only [uploadFinish] at hs'
      rw [getSession_setSession_self, getSession_uploadBegin_self, hs,
        Option.map_some', Option.map_some'] at hs'
      injection hs' with hs'
      subst hs'
      exact Or.inl hres

/-- Claim C2, witness for the amended theorem at a concrete input. -/
theorem single_upload_at_most_one_of_result_error_witness :
    sessionCompleted1.result = none ∨ sessionCompleted1.error = none :=
  single_upload_at_most_one_of_result_error storeW "s" [1]
    (TranscribeResult.success (some "hi")) (newSession "s" 0) (by decide)
    (by decide) (by decide) sessionCompleted1 (by decide)

/-- Claim C4, counterexample: on an HTTP-successful transcription
response whose JSON body lacks the `text` field, `transcribeAudio` does
not fail — it resolves with the missing value — and the containing
session ends in `completed` (not `error`) status. -/
theorem transcribe_missing_text_is_success :
    transcribeAudio (some "key")
        { ok := true, status := 200, errorText := "", textField := none } =
      TranscribeResult.success none ∧
    (getSession ((uploadHandler "s" []
        (transcribeAudio (some "key")
          { ok := true, status := 200, errorText := "", textField := none })
        storeW).2) "s").map Session.status = some Status.completed ∧
    Status.completed ≠ Status.error := by
  decide

/-- Claim C4 (amended): for every HTTP-successful response lacking the
`text` field, `transcribeAudio` returns the absent value as a success;
the upload handler then marks the session `completed` with an empty
`result`, which the wait loop's truthiness guard never accepts as a
successful transcription. -/
theorem transcribe_missing_text_completes_with_empty_result (key : String)
    (resp : ApiResponse) (hok : resp.ok = true) (hmiss : resp.textField = none)
    (store : Store) (sid : String) (d : List Nat) (s : Session)
    (hs : getSession store sid = some s) :
    transcribeAudio (some key) resp = TranscribeResult.success none ∧
    ∃ s', getSession ((uploadHandler sid d (transcribeAudio (some key) resp)
        store).2) sid = some s' ∧
      s'.status = Status.completed ∧ s'.result = none ∧
      jsTruthy s'.result = false := by
  have htr : transcribeAudio (some key) resp = TranscribeResult.success none := by
    unfold transcribeAudio
    rw [if_pos hok, hmiss]
  refine ⟨htr, ?_⟩
  rw [htr, uploadHandler_some_eq sid d _ store s hs]
  simp only [uploadFinish]
  rw [getSession_setSession_self, getSession_uploadBegin_self, hs,
    Option.map_some', Option.map_some']
  exact ⟨_, rfl, rfl, rfl, rfl⟩

/-- Claim C4, witness for the amended theorem at a concrete input. -/
theorem transcribe_missing_text_completes_with_empty_result_witness :
    transcribeAudio (some "key")
        { ok := true, status := 200, errorText := "e", textField := none } =
      TranscribeResult.success none ∧
    ∃ s', getSession ((uploadHandler "s" [3]
        (transcribeAudio (some "key")
          { ok := true, status := 200, errorText := "e", textField := none })
        storeW).2) "s" = some s' ∧
      s'.status = Status.completed ∧ s'.result = none ∧
      jsTruthy s'.result = false :=
  transcribe_missing_text_completes_with_empty_result "key"
    { ok := true, status := 200, errorText := "e", textField := none }
    (by decide) (by decide) storeW "s" [3] (newSession "s" 0) (by decide)

/-- Claim C8: an upload for a session identifier that is absent from
the store yields a 404 response with a "Session not found" payload and
leaves the store completely unchanged. -/
theorem upload_unknown_session_404_store_unchanged (sid : String)
    (d : List Nat) (tr : TranscribeResult) (store : Store)
    (h : getSession store sid = none) :
    uploadHandler sid d tr store =
      ({ status := 404, body := UploadBody.jsonError "Session not found" }, store) :=
  uploadHandler_none_eq sid d tr store h

/-- Claim C8, witness at a concrete input. -/
theorem upload_unknown_session_404_store_unchanged_witness :
    uploadHandler "x" [9] (TranscribeResult.failure "f") storeW =
      ({ status := 404, body := UploadBody.jsonError "Session not found" },
        storeW) :=
  upload_unknown_session_404_store_unchanged "x" [9]
    (TranscribeResult.failure "f") storeW (by decide)

/-- Claim C3, counterexample: with poll interval 500 ms and ceiling
60000 ms, a session that never leaves `waiting` makes the wait loop
return a timeout whose elapsed time is 60500 ms — the claim's interval
`[60000, 60000 + 500)` excludes this value. -/
theorem waitLoop_timeout_elapsed_cex :
    waitLoop (fun _ => storeW) "s" "u" 122 =
      some (LoopOutcome.timeout "u", 60500, deleteSession storeW "s") ∧
    ¬ (60500 < 60000 + 500) := by
  refine ⟨?_, by decide⟩
  exact waitLoopAux_stuck_timeout (fun _ => storeW) "s" "u"
    (fun k => ⟨newSession "s" 0, rfl, by decide⟩) 121 0 122 rfl (by decide)

/-- Claim C3 (amended): with poll interval P = 500 ms and ceiling
C = 60000 ms, a run of the wait loop in which the session never
reaches a terminal state and is never deleted returns a timeout
result, and in the idealized timing model (instantaneous checks,
sleeps of exactly P) the elapsed time at that return lies in the
half-open interval `(C, C + P]` — here exactly `C + P = 60500`,
because the strict comparison `elapsed > C` first succeeds one full
poll interval after the ceiling when P divides C. -/
theorem waitLoop_timeout_elapsed_bounds (env : Nat → Store) (sid url : String)
    (fuel : Nat) (hfuel : 122 ≤ fuel)
    (h : ∀ k, ∃ s, getSession (env k) sid = some s ∧
      s.status ≠ Status.completed ∧ s.status ≠ Status.error) :
    waitLoop env sid url fuel =
      some (LoopOutcome.timeout url, 60500, deleteSession (env 121) sid) ∧
    60000 < 60500 ∧ 60500 ≤ 60000 + 500 := by
  refine ⟨?_, by decide, by decide⟩
  exact waitLoopAux_stuck_timeout env sid url
    (fun k => by
      obtain ⟨s, hs, h1, h2⟩ := h k
      exact ⟨s, hs, stuck_of_nonterminal s h1 h2⟩)
    121 0 fuel rfl (by omega)

/-- Claim C3, witness for the amended theorem at a concrete input. -/
theorem waitLoop_timeout_elapsed_bounds_witness :
    waitLoop (fun _ => storeW) "s" "link" 122 =
      some (LoopOutcome.timeout "link", 60500,
        deleteSession ((fun _ => storeW) 121) "s") ∧
    60000 < 60500 ∧ 60500 ≤ 60000 + 500 :=
  waitLoop_timeout_elapsed_bounds (fun _ => storeW) "s" "link" 122 (by decide)
    (fun k => ⟨newSession "s" 0, rfl, by decide, by decide⟩)

/-- Claim C5: whenever the wait loop returns a success outcome (session
observed `completed` with a truthy result), the session identifier is
no longer present in the store the invocation leaves behind. -/
theorem waitLoop_success_removes_session (env : Nat → Store) (sid url : String)
    (fuel : Nat) (t : String) (e : Nat) (st : Store)
    (h : waitLoop env sid url fuel = some (LoopOutcome.success t, e, st)) :
    getSession st sid = none :=
  waitLoopAux_success_deleted env sid url fuel 0 t e st h

/-- Claim C5, witness at a concrete input: the loop consumes the
completed session of `storeC` on its first poll and deletes it. -/
theorem waitLoop_success_removes_session_witness :
    getSession (deleteSession storeC "s") "s" = none :=
  waitLoop_success_removes_session (fun _ => storeC) "s" "u" 1 "hi" 0
    (deleteSession storeC "s") (by decide)

/-- Claim C6: for every threshold, `sweep` removes exactly the sessions
whose age `now - createdAt` exceeds the threshold, leaves every session
with age at most the threshold present and unmodified, regardless of
status; `cleanupOldSessions` is the sweep at threshold `5 * 60 * 1000`. -/
theorem sweep_removes_exactly_older_than_threshold (T now : Nat) (store : Store)
    (hnd : (List.map Prod.fst store).Nodup) (sid : String) (s : Session) :
    (getSession (sweep T now store) sid = some s ↔
      getSession store sid = some s ∧ now - s.createdAt ≤ T) ∧
    cleanupOldSessions now store = sweep (5 * 60 * 1000) now store :=
  ⟨getSession_sweep T now store sid hnd s, rfl⟩

/-- Claim C6, witness at a concrete input: a session of age 50 survives
a sweep with threshold 100 unmodified, taken from a store that also
holds a session of age 250. -/
theorem sweep_removes_exactly_older_than_threshold_witness :
    getSession (sweep 100 250 [("a", newSession "a" 0), ("b", newSession "b" 200)])
        "b" = some (newSession "b" 200) :=
  (sweep_removes_exactly_older_than_threshold 100 250
      [("a", newSession "a" 0), ("b", newSession "b" 200)] (by decide) "b"
      (newSession "b" 200)).1.mpr ⟨by decide, by decide⟩

/-- Claim C7: if nothing is ever uploaded for the session (it stays
exactly as created at every poll), the wait loop returns the timeout
outcome and the timeout result text still ends with the recording link
computed at session creation, the URL embedding the session id. -/
theorem timeout_result_contains_record_link (env : Nat → Store)
    (baseUrl sid : String) (t0 : Nat) (fuel : Nat) (hfuel : 122 ≤ fuel)
    (hnever : ∀ k, getSession (env k) sid = some (newSession sid t0)) :
    waitLoop env sid (recordUrl baseUrl sid) fuel =
      some (LoopOutcome.timeout (recordUrl baseUrl sid), 60500,
        deleteSession (env 121) sid) ∧
    outcomeText (LoopOutcome.timeout (recordUrl baseUrl sid)) =
      "⏰ 录音超时（60秒）。请打开此链接录音：" ++ recordUrl baseUrl sid ∧
    recordUrl baseUrl sid = baseUrl ++ "/record/" ++ sid := by
  refine ⟨?_, rfl, rfl⟩
  exact waitLoopAux_stuck_timeout env sid (recordUrl baseUrl sid)
    (fun k => ⟨newSession sid t0, hnever k,
      stuck_of_nonterminal (newSession sid t0)
        (fun h => Status.noConfusion h) (fun h => Status.noConfusion h)⟩)
    121 0 fuel rfl (by omega)

/-- Claim C7, witness at a concrete input. -/
theorem timeout_result_contains_record_link_witness :
    waitLoop (fun _ => [("s", newSession "s" 5)]) "s"
        (recordUrl "http://localhost:8000" "s") 122 =
      some (LoopOutcome.timeout (recordUrl "http://localhost:8000" "s"), 60500,
        deleteSession ((fun _ => [("s", newSession "s" 5)]) 121) "s") ∧
    outcomeText (LoopOutcome.timeout (recordUrl "http://localhost:8000" "s")) =
      "⏰ 录音超时（60秒）。请打开此链接录音：" ++
        recordUrl "http://localhost:8000" "s" ∧
    recordUrl "http://localhost:8000" "s" = "http://localhost:8000" ++ "/record/" ++ "s" :=
  timeout_result_contains_record_link (fun _ => [("s", newSession "s" 5)])
    "http://localhost:8000" "s" 5 122 (by decide) (fun k => rfl)

/-- Claim C9: a `tools/call` naming any tool other than `voice-to-text`,
and any request whose method is none of the supported ones, gets a
well-formed response envelope carrying a structured error with code
-32601 (and the handler is a total function, so no fault escapes). -/
theorem unknown_tool_or_method_structured_error (req : MCPRequest)
    (h : (req.method = "tools/call" ∧ toolNameOf req ≠ some "voice-to-text") ∨
      (req.method ≠ "initialize" ∧ req.method ≠ "tools/list" ∧
        req.method ≠ "tools/call")) :
    ∃ r, handleMCPRequest req = MCPOutcome.response r ∧
      r.jsonrpc = "2.0" ∧ r.id = req.id ∧ r.result = none ∧
      ∃ m, r.error = some { code := -32601, message := m } := by
  rcases h with ⟨hm, ht⟩ | ⟨h1, h2, h3⟩
  · unfold handleMCPRequest
    rw [hm]
    rw [if_neg (by decide), if_neg (by decide), if_pos rfl, if_neg ht]
    exact ⟨_, rfl, rfl, rfl, rfl, _, rfl⟩
  · unfold handleMCPRequest
    rw [if_neg h1, if_neg h2, if_neg h3]
    exact ⟨_, rfl, rfl, rfl, rfl, _, rfl⟩

/-- Claim C9, witness at a concrete input. -/
theorem unknown_tool_or_method_structured_error_witness :
    ∃ r, handleMCPRequest demoUnknownToolReq = MCPOutcome.response r ∧
      r.jsonrpc = "2.0" ∧ r.id = demoUnknownToolReq.id ∧ r.result = none ∧
      ∃ m, r.error = some { code := -32601, message := m } :=
  unknown_tool_or_method_structured_error demoUnknownToolReq
    (Or.inl ⟨rfl, by decide⟩)

/-- Claim C10: the wait loop returns a success only for a `completed`
session with a truthy result; if the session, whenever present, is
`completed` with an absent or empty-string result, the loop never
consumes it as a success and can only exit through the timeout or the
expiry branch. -/
theorem completed_empty_result_never_success (env : Nat → Store)
    (sid url : String) (fuel : Nat) (out : LoopOutcome) (e : Nat) (st : Store)
    (h : ∀ k s, getSession (env k) sid = some s →
      s.status = Status.completed ∧ (s.result = none ∨ s.result = some ""))
    (hloop : waitLoop env sid url fuel = some (out, e, st)) :
    (out = LoopOutcome.timeout url ∨ out = LoopOutcome.expired) ∧
    ∀ t, out ≠ LoopOutcome.success t := by
  have hstuck : ∀ k s, getSession (env k) sid = some s → stuckSession s := by
    intro k s hs
    obtain ⟨hcomp, hres⟩ := h k s hs
    refine ⟨?_, ?_⟩
    · intro hc
      rcases hres with hres | hres <;> rw [hres] at hc <;>
        exact absurd hc.2 (by decide)
    · rw [hcomp]
      exact fun hx => Status.noConfusion hx
  have hout := waitLoopAux_stuck_no_success env sid url hstuck fuel 0 out e st hloop
  refine ⟨hout, ?_⟩
  intro t hsuc
  rcases hout with hout | hout <;> rw [hsuc] at hout <;> exact LoopOutcome.noConfusion hout

/-- Claim C10, witness at a concrete input: a session completed with an
empty-string result is never consumed; the loop times out instead. -/
theorem completed_empty_result_never_success_witness :
    ((LoopOutcome.timeout "u" = LoopOutcome.timeout "u" ∨
      LoopOutcome.timeout "u" = LoopOutcome.expired) ∧
    ∀ t, LoopOutcome.timeout "u" ≠ LoopOutcome.success t) :=
  completed_empty_result_never_success (fun _ => storeEmptyResult) "s" "u" 122
    (LoopOutcome.timeout "u") 60500
    (deleteSession ((fun _ => storeEmptyResult) 121) "s")
    (fun k s hs => by
      rw [show getSession ((fun _ => storeEmptyResult) k) "s" =
        some sessionEmptyResult from rfl] at hs
      injection hs with hs
      subst hs
      exact ⟨rfl, Or.inr rfl⟩)
    (waitLoopAux_stuck_timeout (fun _ => storeEmptyResult) "s" "u"
      (fun k => ⟨_, rfl, by decide⟩) 121 0 122 rfl (by decide))

end OpencodeVoice
